import Mathlib

/-!
Shallow embedding of the live-caption backend (translation service,
transcription agent, caption data channel, user-settings store) and
verification of its specified properties.

Source modules embedded here:
- the translation service (translateText, translateToMultipleLanguages,
  its NodeCache-backed in-memory cache and database cache);
- the LiveKit agent (startTranscription, handleInterimTranscript,
  handleFinalTranscript);
- the data-channel caption formatting (broadcastCaption,
  sendCaptionToParticipant, sendTranslatedCaptions);
- the user-settings store (getMeetingLanguages);
- the Deepgram wrapper (transcript dispatch, Error/Close handlers).

External collaborators (translation provider, Supabase tables) are modelled
as explicit oracles and assoc-list stores; overflow-free data only.
-/

namespace Backbone

/-- JavaScript `a || b` on an optional string: `undefined` and the empty
string are falsy, any other string is truthy. -/
def jsOrStr (v : Option String) (d : String) : String :=
  match v with
  | some s => if s = "" then d else s
  | none => d

/-! ## Translation cache (NodeCache)

The service constructs its in-memory cache as
`new NodeCache({ stdTTL: 3600, checkperiod: 600 })`.
NodeCache leaves every other option at its default; in particular
`maxKeys` stays `-1`, meaning no bound on the number of entries. -/

/-- Options of a NodeCache instance, as far as eviction is concerned. -/
structure NodeCacheOptions where
  stdTTL : Nat
  checkperiod : Nat
  maxKeys : Int
deriving DecidableEq, Repr

/-- The options the source passes to `new NodeCache`: TTL 3600 seconds,
check period 600 seconds, and the `maxKeys` default of `-1` (unlimited). -/
def translationCacheOptions : NodeCacheOptions :=
  { stdTTL := 3600, checkperiod := 600, maxKeys := -1 }

/-- The in-memory translation cache: entries `(key, value, insertedAt)`,
newest first.  Time is in seconds. -/
abbrev TimedCache := List (String × String × Nat)

/-- `translationCache.get key` at time `now`: a stored entry is returned
while it is younger than `stdTTL` seconds, otherwise it counts as absent
(NodeCache deletes expired entries on access). -/
def tcGet (c : TimedCache) (k : String) (now : Nat) : Option String :=
  match c.find? (fun e => e.1 == k) with
  | some e => if now < e.2.2 + translationCacheOptions.stdTTL then some e.2.1 else none
  | none => none

/-- `translationCache.set key v` at time `now`: overwrites any entry for
the same key and never evicts any other entry (the source sets no
`maxKeys`, so NodeCache imposes no entry-count bound). -/
def tcSet (c : TimedCache) (k v : String) (now : Nat) : TimedCache :=
  (k, v, now) :: c.filter (fun e => !(e.1 == k))

/-! ## Durable store: meeting_translations -/

/-- Rows of `meeting_translations`: `(transcript_id, target_language,
translated_text)`.  The table has a unique key on the first two fields. -/
abbrev TranslationDb := List (Nat × String × String)

/-- `getTranslation(transcriptId, targetLanguage)`: selects the row for the
pair and returns its `translated_text`, or `none` when no row exists. -/
def getTranslation (db : TranslationDb) (tid : Nat) (target : String) : Option String :=
  (db.find? (fun r => r.1 == tid && r.2.1 == target)).map (fun r => r.2.2)

/-- `saveTranslation(transcriptId, targetLanguage, translatedText)`:
inserts a row; a duplicate-key conflict (code 23505) is ignored and leaves
the table unchanged. -/
def saveTranslation (db : TranslationDb) (tid : Nat) (target val : String) : TranslationDb :=
  if db.any (fun r => r.1 == tid && r.2.1 == target) then db
  else db ++ [(tid, target, val)]

/-! ## Translation service -/

/-- Feature flags from `config.features`. -/
structure FeaturesConfig where
  transcription : Bool
  translation : Bool
  cacheTranslations : Bool
deriving DecidableEq, Repr

/-- Mutable state the translation service touches: the in-memory NodeCache
and the `meeting_translations` table. -/
structure TransState where
  cache : TimedCache
  db : TranslationDb
deriving DecidableEq, Repr

/-- The translation provider (LibreTranslate or Google): given
`(text, sourceLang, targetLang)` it either returns translated text or
fails (HTTP error or the 5-second axios timeout), modelled as `none`. -/
abbrev Provider := String → String → String → Option String

/-- Observable effects of one `translateText` call, in order. -/
inductive Eff where
  | cacheGet (key : String)
  | cacheSet (key val : String)
  | dbGet (tid : Nat) (target : String)
  | dbSave (tid : Nat) (target val : String)
  | providerCall (text source target : String)
deriving DecidableEq, Repr

/-- The cache key built by `translateText`:
the raw text and language codes joined by underscores, with no
normalization of the text. -/
def cacheKey (text sourceLang targetLang : String) : String :=
  text ++ "_" ++ sourceLang ++ "_" ++ targetLang

/-- Tail of `translateText` once every cache has missed: call the provider;
on success cache the result (and persist it when a transcript id was
given), on error or timeout fall back to the original text. -/
def doProvider (cfg : FeaturesConfig) (prov : Provider) (st : TransState) (now : Nat)
    (text sourceLang targetLang : String) (transcriptId : Option Nat)
    (effs : List Eff) : String × TransState × List Eff :=
  match prov text sourceLang targetLang with
  | some tr =>
      if cfg.cacheTranslations then
        let key := cacheKey text sourceLang targetLang
        let st1 : TransState := { cache := tcSet st.cache key tr now, db := st.db }
        match transcriptId with
        | some tid =>
            ⟨tr, { cache := st1.cache, db := saveTranslation st1.db tid targetLang tr },
              effs ++ [Eff.providerCall text sourceLang targetLang, Eff.cacheSet key tr,
                Eff.dbSave tid targetLang tr]⟩
        | none =>
            ⟨tr, st1, effs ++ [Eff.providerCall text sourceLang targetLang, Eff.cacheSet key tr]⟩
      else
        ⟨tr, st, effs ++ [Eff.providerCall text sourceLang targetLang]⟩
  | none => ⟨text, st, effs ++ [Eff.providerCall text sourceLang targetLang]⟩

/-- Database-cache step of `translateText` (reached only when caching is
enabled and the in-memory cache did not hit): with a transcript id, look
up `meeting_translations`; a truthy hit is copied into the memory cache
and returned, anything else falls through to the provider. -/
def dbCacheStep (cfg : FeaturesConfig) (prov : Provider) (st : TransState) (now : Nat)
    (text sourceLang targetLang : String) (transcriptId : Option Nat)
    (effs : List Eff) : String × TransState × List Eff :=
  match transcriptId with
  | some tid =>
      match getTranslation st.db tid targetLang with
      | some dbc =>
          if dbc = "" then
            doProvider cfg prov st now text sourceLang targetLang transcriptId
              (effs ++ [Eff.dbGet tid targetLang])
          else
            let key := cacheKey text sourceLang targetLang
            ⟨dbc, { cache := tcSet st.cache key dbc now, db := st.db },
              effs ++ [Eff.dbGet tid targetLang, Eff.cacheSet key dbc]⟩
      | none =>
          doProvider cfg prov st now text sourceLang targetLang transcriptId
            (effs ++ [Eff.dbGet tid targetLang])
  | none => doProvider cfg prov st now text sourceLang targetLang transcriptId effs

/-- `translateText(text, sourceLang, targetLang, transcriptId)`:
identical source and target short-circuit to the input; otherwise the
in-memory cache, then the database cache, then the provider are tried in
turn, with the original text as fallback on provider failure.  A cached
empty string is falsy in JavaScript and therefore never counts as a hit. -/
def translateText (cfg : FeaturesConfig) (prov : Provider) (st : TransState) (now : Nat)
    (text sourceLang targetLang : String) (transcriptId : Option Nat) :
    String × TransState × List Eff :=
  if sourceLang = targetLang then
    ⟨text, st, []⟩
  else
    let key := cacheKey text sourceLang targetLang
    if cfg.cacheTranslations then
      match tcGet st.cache key now with
      | some cached =>
          if cached = "" then
            dbCacheStep cfg prov st now text sourceLang targetLang transcriptId
              [Eff.cacheGet key]
          else
            ⟨cached, st, [Eff.cacheGet key]⟩
      | none =>
          dbCacheStep cfg prov st now text sourceLang targetLang transcriptId
            [Eff.cacheGet key]
    else
      doProvider cfg prov st now text sourceLang targetLang transcriptId []

/-- `translateToMultipleLanguages(text, sourceLang, targetLanguages,
transcriptId)`: translates to each target, collecting results in a
per-language map.  The source resolves the per-target promises over the
shared cache; the state is threaded through in list order. -/
def translateToMultipleLanguages (cfg : FeaturesConfig) (prov : Provider) (st : TransState)
    (now : Nat) (text sourceLang : String) (targetLanguages : List String)
    (transcriptId : Option Nat) :
    List (String × String) × TransState × List Eff :=
  match targetLanguages with
  | [] => ⟨[], st, []⟩
  | t :: ts =>
      let r1 := translateText cfg prov st now text sourceLang t transcriptId
      let rest := translateToMultipleLanguages cfg prov r1.2.1 now text sourceLang ts transcriptId
      ⟨(t, r1.1) :: rest.1, rest.2.1, r1.2.2 ++ rest.2.2⟩

/-- Lookup in the per-language result map of a fan-out. -/
def lookupLang (m : List (String × String)) (l : String) : Option String :=
  (m.find? (fun p => p.1 == l)).map (fun p => p.2)

/-- Recognizer for provider-call effects. -/
def isProviderCall : Eff → Bool
  | Eff.providerCall _ _ _ => true
  | _ => false

/-! ## Caption data channel -/

/-- The caption object the agent hands to the data-channel module.
`translatedText` and `targetLanguage` are absent (`none`) when the agent
did not set them.  Message id and wall-clock timestamp are generated
per send and carry no information; they are omitted from the model. -/
structure CaptionIn where
  meetingId : String
  speakerId : String
  speakerName : String
  originalText : String
  originalLanguage : String
  translatedText : Option String
  targetLanguage : Option String
  isFinal : Bool
  confidence : ℚ
deriving DecidableEq, Repr

/-- The caption message put on the wire (`type: 'caption'`).
`translatedText` and `targetLanguage` stay optional because
`sendCaptionToParticipant` copies them from the input verbatim. -/
structure CaptionMsg where
  meetingId : String
  speakerId : String
  speakerName : String
  originalText : String
  originalLanguage : String
  translatedText : Option String
  targetLanguage : Option String
  isFinal : Bool
  confidence : ℚ
deriving DecidableEq, Repr

/-- `broadcastCaption(room, caption)`: the message sent to every
participant; `translatedText` falls back to the original text and
`targetLanguage` to the original language via JavaScript `||`. -/
def broadcastCaption (c : CaptionIn) : CaptionMsg :=
  { meetingId := c.meetingId, speakerId := c.speakerId, speakerName := c.speakerName,
    originalText := c.originalText, originalLanguage := c.originalLanguage,
    translatedText := some (jsOrStr c.translatedText c.originalText),
    targetLanguage := some (jsOrStr c.targetLanguage c.originalLanguage),
    isFinal := c.isFinal, confidence := c.confidence }

/-- `sendCaptionToParticipant(room, participantIdentity, caption)`: the
message sent to one participant; fields are copied verbatim. -/
def sendCaptionToParticipant (c : CaptionIn) : CaptionMsg :=
  { meetingId := c.meetingId, speakerId := c.speakerId, speakerName := c.speakerName,
    originalText := c.originalText, originalLanguage := c.originalLanguage,
    translatedText := c.translatedText, targetLanguage := c.targetLanguage,
    isFinal := c.isFinal, confidence := c.confidence }

/-! ## LiveKit agent -/

/-- A transcript event as delivered by the Deepgram wrapper to the agent
callbacks. -/
structure TranscriptEv where
  text : String
  confidence : ℚ
  language : String
  isFinal : Bool
deriving DecidableEq, Repr

/-- Observable effects of the agent handlers. -/
inductive AgentEff where
  | persistTranscript (meetingId speakerId speakerName text language : String)
  | logWarn (msg : String)
  | transEff (e : Eff)
  | broadcast (m : CaptionMsg)
  | sendTo (participantIdentity : String) (m : CaptionMsg)
deriving DecidableEq, Repr

/-- `handleInterimTranscript(session, speakerId, speakerName, transcript)`:
broadcasts the caption without translation; no store access, no
translation call. -/
def handleInterimTranscript (meetingId speakerId speakerName : String)
    (t : TranscriptEv) : List AgentEff :=
  [AgentEff.broadcast (broadcastCaption
    { meetingId := meetingId, speakerId := speakerId, speakerName := speakerName,
      originalText := t.text, originalLanguage := t.language,
      translatedText := none, targetLanguage := none,
      isFinal := false, confidence := t.confidence })]

/-- The per-participant translation loop inside `handleFinalTranscript`:
for each `(userId, language)` pair, `translateText` is awaited and the
result recorded as `(participantIdentity, language, translatedText)`. -/
def translateLoop (cfg : FeaturesConfig) (prov : Provider) (st : TransState) (now : Nat)
    (text sourceLang : String) (transcriptId : Option Nat) :
    List (String × String) → TransState × List (String × String × String) × List Eff
  | [] => ⟨st, [], []⟩
  | (uid, l) :: rest =>
      let r := translateText cfg prov st now text sourceLang l transcriptId
      let rec' := translateLoop cfg prov r.2.1 now text sourceLang transcriptId rest
      ⟨rec'.1, (uid, l, r.1) :: rec'.2.1, r.2.2 ++ rec'.2.2⟩

/-- `sendTranslatedCaptions(room, caption, participantLanguages)`: each
participant gets the base caption with their target language and their
translated text, empty translations falling back to the original text. -/
def sendTranslatedCaptions (base : CaptionIn)
    (entries : List (String × String × String)) : List AgentEff :=
  entries.map (fun e =>
    AgentEff.sendTo e.1 (sendCaptionToParticipant
      { base with targetLanguage := some e.2.1,
                  translatedText := some (jsOrStr (some e.2.2) base.originalText) }))

/-- `handleFinalTranscript(session, speakerId, speakerName, transcript)`:
persist the transcript (best effort; a failed save is logged), read the
participant language list, and either broadcast the original (translation
disabled or nobody registered) or translate per participant and send
targeted captions.  `savedId` is the row id returned by the transcript
save, `none` when the save failed; `langs` is the result of
`getMeetingLanguages`. -/
def handleFinalTranscript (cfg : FeaturesConfig) (prov : Provider) (st : TransState)
    (now : Nat) (savedId : Option Nat) (langs : List (String × String))
    (meetingId speakerId speakerName : String) (t : TranscriptEv) :
    TransState × List AgentEff :=
  let persistE : List AgentEff :=
    [AgentEff.persistTranscript meetingId speakerId speakerName t.text t.language] ++
      (if savedId.isNone then [AgentEff.logWarn "Failed to save transcript"] else [])
  if cfg.translation = false ∨ langs = [] then
    ⟨st, persistE ++ [AgentEff.broadcast (broadcastCaption
      { meetingId := meetingId, speakerId := speakerId, speakerName := speakerName,
        originalText := t.text, originalLanguage := t.language,
        translatedText := none, targetLanguage := none,
        isFinal := true, confidence := t.confidence })]⟩
  else
    let loop := translateLoop cfg prov st now t.text t.language savedId langs
    ⟨loop.1, persistE ++ (loop.2.2.map AgentEff.transEff) ++
      sendTranslatedCaptions
        { meetingId := meetingId, speakerId := speakerId, speakerName := speakerName,
          originalText := t.text, originalLanguage := t.language,
          translatedText := none, targetLanguage := none,
          isFinal := true, confidence := t.confidence } loop.2.1⟩

/-- The Deepgram `Transcript` event handler as wired to the agent: an
empty alternative is dropped, a final result goes to
`handleFinalTranscript`, anything else to `handleInterimTranscript`. -/
def onTranscriptResult (cfg : FeaturesConfig) (prov : Provider) (st : TransState)
    (now : Nat) (savedId : Option Nat) (langs : List (String × String))
    (meetingId speakerId speakerName : String)
    (text : String) (confidence : ℚ) (language : String) (isFinal : Bool) :
    TransState × List AgentEff :=
  if text = "" then ⟨st, []⟩
  else if isFinal then
    handleFinalTranscript cfg prov st now savedId langs meetingId speakerId speakerName
      { text := text, confidence := confidence, language := language, isFinal := true }
  else
    ⟨st, handleInterimTranscript meetingId speakerId speakerName
      { text := text, confidence := confidence, language := language, isFinal := false }⟩

/-! ## Agent lifecycle -/

/-- The `{success, message}` object the agent start/stop functions
return. -/
structure OpResult where
  success : Bool
  message : String
deriving DecidableEq, Repr

/-- `startTranscription(meetingId, roomName, token)` acting on the
`activeSessions` map, listed by meeting id.  `connectOk` models whether
`room.connect` succeeds; on failure the error message is surfaced and no
session is stored (the map insert happens only after a successful
connect). -/
def startTranscription (cfg : FeaturesConfig) (connectOk : Bool)
    (activeSessions : List String) (meetingId : String) : OpResult × List String :=
  if cfg.transcription = false then
    ⟨{ success := false, message := "Transcription disabled" }, activeSessions⟩
  else if activeSessions.contains meetingId then
    ⟨{ success := false, message := "Already transcribing" }, activeSessions⟩
  else if connectOk then
    ⟨{ success := true, message := "Transcription started" }, activeSessions ++ [meetingId]⟩
  else
    ⟨{ success := false, message := "Room connect failed" }, activeSessions⟩

/-! ## User settings store -/

/-- `getMeetingLanguages(meetingId)`: reads the participant list, then
their language preferences, and pairs each distinct participant with
their preferred language (default `en`).  Any thrown store error is
caught and absorbed into an empty list, as is an empty or absent
participant list.  `partOk` and `settingsOk` model the two Supabase
queries succeeding. -/
def getMeetingLanguages (partOk settingsOk : Bool) (participants : List String)
    (settings : List (String × String)) : List (String × String) :=
  if partOk = false then []
  else if participants.isEmpty then []
  else if settingsOk = false then []
  else (participants.eraseDups).map (fun u =>
    (u, jsOrStr ((settings.find? (fun s => s.1 == u)).map (fun s => s.2)) "en"))

/-! ## Deepgram connection handlers -/

/-- Observable effects of the Deepgram connection event handlers. -/
inductive SessEff where
  | logError (msg : String)
  | logInfo (msg : String)
  | reconnectAttempt (attempt : Nat) (delaySeconds : Nat)
  | notifyDegraded (speakerId : String)
deriving DecidableEq, Repr

/-- The `LiveTranscriptionEvents.Error` handler registered in
`createTranscriptionSession`: it logs the error and nothing else. -/
def onDeepgramError (meetingId errMsg : String) : List SessEff :=
  [SessEff.logError "Deepgram error"]

/-- The `LiveTranscriptionEvents.Close` handler registered in
`createTranscriptionSession`: it logs the close and nothing else. -/
def onDeepgramClose (meetingId : String) : List SessEff :=
  [SessEff.logInfo "Deepgram connection closed"]

/-- Recognizer for reconnection-attempt effects. -/
def isReconnectAttempt : SessEff → Bool
  | SessEff.reconnectAttempt _ _ => true
  | _ => false

/-- Recognizer for degraded-service notices. -/
def isNotifyDegraded : SessEff → Bool
  | SessEff.notifyDegraded _ => true
  | _ => false

/-! ## Spec-side text normalization (for claim C3 only)

The specification defines cache-key equality on text after trimming and
collapsing whitespace; this definition follows the words of the spec and
is compared against the cache key the source actually builds. -/

/-- Splits a character list into maximal whitespace-free runs. -/
def splitWsAux : List Char → List Char → List (List Char)
  | [], acc => if acc = [] then [] else [acc.reverse]
  | c :: cs, acc =>
      if c.isWhitespace then
        if acc = [] then splitWsAux cs [] else acc.reverse :: splitWsAux cs []
      else splitWsAux cs (c :: acc)

/-- Normalization as worded by the spec: trim leading and trailing
whitespace and collapse each internal whitespace run to a single space. -/
def normalizeWs (s : String) : String :=
  " ".intercalate ((splitWsAux s.data []).map (fun l => String.mk l))

/-! ## Helper lemmas -/

theorem doProvider_none {prov : Provider} {text s t : String}
    (cfg : FeaturesConfig) (st : TransState) (now : Nat) (tid : Option Nat)
    (effs : List Eff) (h : prov text s t = none) :
    doProvider cfg prov st now text s t tid effs =
      ⟨text, st, effs ++ [Eff.providerCall text s t]⟩ := by
  simp [doProvider, h]

theorem dbCacheStep_none {prov : Provider} {text s t : String}
    (cfg : FeaturesConfig) (st : TransState) (now : Nat) (tid : Option Nat)
    (effs : List Eff) (h : prov text s t = none)
    (heff : Eff.providerCall text s t ∉ effs) :
    (dbCacheStep cfg prov st now text s t tid effs).2.1.db = st.db ∧
    (Eff.providerCall text s t ∈ (dbCacheStep cfg prov st now text s t tid effs).2.2 →
      (dbCacheStep cfg prov st now text s t tid effs).1 = text ∧
      (dbCacheStep cfg prov st now text s t tid effs).2.1 = st) := by
  unfold dbCacheStep
  match tid with
  | none =>
      rw [doProvider_none cfg st now none effs h]
      exact ⟨rfl, fun _ => ⟨rfl, rfl⟩⟩
  | some i =>
      cases hdb : getTranslation st.db i t with
      | none =>
          simp only [hdb]
          rw [doProvider_none cfg st now (some i) _ h]
          exact ⟨rfl, fun _ => ⟨rfl, rfl⟩⟩
      | some dbc =>
          simp only [hdb]
          by_cases hdbc : dbc = ""
          · simp only [hdbc, if_pos rfl]
            rw [doProvider_none cfg st now (some i) _ h]
            exact ⟨rfl, fun _ => ⟨rfl, rfl⟩⟩
          · simp only [if_neg hdbc]
            refine ⟨trivial, fun hmem => absurd hmem ?_⟩
            simp only [List.mem_append, List.mem_cons, List.not_mem_nil, or_false]
            push_neg
            exact ⟨heff, by simp, by simp⟩

theorem translateText_fail_of_miss {prov : Provider} {text s t : String}
    (cfg : FeaturesConfig) (st : TransState) (now : Nat)
    (hst : s ≠ t) (hc : tcGet st.cache (cacheKey text s t) now = none)
    (hp : prov text s t = none) :
    (translateText cfg prov st now text s t none).1 = text ∧
    (translateText cfg prov st now text s t none).2.1 = st := by
  unfold translateText
  simp only [if_neg hst]
  by_cases hcache : cfg.cacheTranslations
  · simp only [hcache, if_pos, hc]
    unfold dbCacheStep
    rw [doProvider_none cfg st now none _ hp]
    exact ⟨rfl, rfl⟩
  · simp only [hcache, if_neg, Bool.false_eq_true]
    rw [doProvider_none cfg st now none _ hp]
    exact ⟨rfl, rfl⟩

theorem translateText_ok_of_miss {prov : Provider} {text s t tr : String}
    (cfg : FeaturesConfig) (st : TransState) (now : Nat)
    (hst : s ≠ t) (hc : tcGet st.cache (cacheKey text s t) now = none)
    (hp : prov text s t = some tr) :
    (translateText cfg prov st now text s t none).1 = tr := by
  unfold translateText
  simp only [if_neg hst]
  by_cases hcache : cfg.cacheTranslations
  · simp only [hcache, if_pos, hc]
    unfold dbCacheStep doProvider
    simp [hp, hcache]
  · simp only [hcache, if_neg, Bool.false_eq_true]
    unfold doProvider
    simp [hp, hcache]

theorem tcGet_tcSet_self (c : TimedCache) (k v : String) (tIns now : Nat) :
    tcGet (tcSet c k v tIns) k now =
      (if now < tIns + translationCacheOptions.stdTTL then some v else none) := by
  simp [tcGet, tcSet, List.find?]

theorem find?_filter_of_imp {α : Type} (p q : α → Bool) (c : List α)
    (h : ∀ a, q a = true → p a = true) :
    (c.filter p).find? q = c.find? q := by
  induction c with
  | nil => rfl
  | cons e rest ih =>
      cases hq : q e with
      | true =>
          rw [List.filter_cons, if_pos (h e hq),
            List.find?_cons_of_pos _ hq, List.find?_cons_of_pos _ hq]
      | false =>
          cases hp : p e with
          | true =>
              rw [List.filter_cons, if_pos hp,
                List.find?_cons_of_neg _ (by simp [hq]),
                List.find?_cons_of_neg _ (by simp [hq])]
              exact ih
          | false =>
              rw [List.filter_cons, if_neg (by simp [hp]),
                List.find?_cons_of_neg _ (by simp [hq])]
              exact ih

theorem tcGet_tcSet_other (c : TimedCache) (k k2 v : String) (tIns now : Nat)
    (hne : k2 ≠ k) :
    tcGet (tcSet c k v tIns) k2 now = tcGet c k2 now := by
  have hhead : ¬ ((fun (e : String × String × Nat) => e.1 == k2) (k, v, tIns) = true) := by
    simp
    exact fun h => hne h.symm
  have hcond : ∀ e : String × String × Nat,
      (e.1 == k2) = true → (!(e.1 == k)) = true := by
    intro e he
    simp at he ⊢
    rw [he]
    exact hne
  unfold tcGet tcSet
  have h2 : ((k, v, tIns) :: c.filter (fun e => !(e.1 == k))).find? (fun e => e.1 == k2)
      = (c.filter (fun e => !(e.1 == k))).find? (fun e => e.1 == k2) := by
    rw [List.find?_cons_of_neg]
    exact hhead
  rw [h2, find?_filter_of_imp _ _ c hcond]

theorem translateText_hit {prov : Provider} {text s t c : String}
    (cfg : FeaturesConfig) (st : TransState) (now : Nat) (tid : Option Nat)
    (hst : s ≠ t) (hcache : cfg.cacheTranslations = true)
    (hc : tcGet st.cache (cacheKey text s t) now = some c) (hcne : c ≠ "") :
    translateText cfg prov st now text s t tid
      = ⟨c, st, [Eff.cacheGet (cacheKey text s t)]⟩ := by
  unfold translateText
  simp [if_neg hst, hcache, hc, hcne]

theorem translateText_ok_state {prov : Provider} {text s t tr : String}
    (cfg : FeaturesConfig) (st : TransState) (now : Nat)
    (hst : s ≠ t) (hcache : cfg.cacheTranslations = true)
    (hc : tcGet st.cache (cacheKey text s t) now = none)
    (hp : prov text s t = some tr) :
    (translateText cfg prov st now text s t none).2.1
      = { cache := tcSet st.cache (cacheKey text s t) tr now, db := st.db } := by
  unfold translateText dbCacheStep doProvider
  simp [if_neg hst, hcache, hc, hp]

/-! ## Claim theorems -/

/-- C5: for every translation request where the source language equals the
target language, `translateText` returns exactly the original input text,
leaves the cache and the store untouched, and performs no effect at all:
no cache read, no cache write, no database access, no provider call. -/
theorem C5_same_language_short_circuit (cfg : FeaturesConfig) (prov : Provider)
    (st : TransState) (now : Nat) (text sourceLang targetLang : String)
    (tid : Option Nat) (h : sourceLang = targetLang) :
    translateText cfg prov st now text sourceLang targetLang tid = ⟨text, st, []⟩ := by
  simp [translateText, h]

/-- C5 witness: the short circuit evaluated at a concrete request. -/
theorem C5_same_language_short_circuit_witness :
    ("en" : String) = "en" ∧
    translateText { transcription := true, translation := true, cacheTranslations := true }
        (fun _ _ _ => some "X") { cache := [], db := [] } 0 "Hello" "en" "en" none
      = ⟨"Hello", { cache := [], db := [] }, []⟩ :=
  ⟨rfl, C5_same_language_short_circuit _ _ _ _ _ _ _ _ rfl⟩

/-- C2: evaluation of the code at the failing input.  The claim (and the
repository architecture document) promise five exponential-backoff
reconnection attempts, an absorbing `failed` state and one degraded-service
notice; the Deepgram `Error` and `Close` handlers the source registers
only log, producing zero reconnection attempts and zero notices. -/
theorem C2_handlers_only_log :
    onDeepgramError "meeting1" "socket hang up" = [SessEff.logError "Deepgram error"] ∧
    onDeepgramClose "meeting1" = [SessEff.logInfo "Deepgram connection closed"] ∧
    ((onDeepgramError "meeting1" "socket hang up").countP isReconnectAttempt = 0 ∧
      (onDeepgramError "meeting1" "socket hang up").countP isNotifyDegraded = 0) ∧
    ((onDeepgramClose "meeting1").countP isReconnectAttempt = 0 ∧
      (onDeepgramClose "meeting1").countP isNotifyDegraded = 0) :=
  ⟨rfl, rfl, ⟨rfl, rfl⟩, ⟨rfl, rfl⟩⟩

/-- C9: a failed translation attempt (provider error or timeout) persists
nothing: the `meeting_translations` table is unchanged by the call, and
whenever the provider was actually consulted and failed, the result is the
original text and the entire state (cache included) is untouched. -/
theorem C9_failed_translation_persists_nothing
    (cfg : FeaturesConfig) (prov : Provider) (st : TransState) (now : Nat)
    (text s t : String) (tid : Option Nat) (h : prov text s t = none) :
    (translateText cfg prov st now text s t tid).2.1.db = st.db ∧
    (Eff.providerCall text s t ∈ (translateText cfg prov st now text s t tid).2.2 →
      (translateText cfg prov st now text s t tid).1 = text ∧
      (translateText cfg prov st now text s t tid).2.1 = st) := by
  unfold translateText
  by_cases hst : s = t
  · simp [hst]
  · simp only [if_neg hst]
    by_cases hcache : cfg.cacheTranslations
    · simp only [hcache, if_pos]
      cases hc : tcGet st.cache (cacheKey text s t) now with
      | some cached =>
          by_cases hemp : cached = ""
          · simp only [hemp, if_pos rfl]
            exact dbCacheStep_none cfg st now tid _ h (by simp)
          · simp only [if_neg hemp]
            exact ⟨trivial, by simp⟩
      | none =>
          exact dbCacheStep_none cfg st now tid _ h (by simp)
    · simp only [hcache, Bool.false_eq_true, if_neg]
      rw [doProvider_none cfg st now tid _ h]
      exact ⟨rfl, fun _ => ⟨rfl, rfl⟩⟩

/-- C9 witness: a concrete failing call leaves the store and state
untouched and returns the original text. -/
theorem C9_failed_translation_persists_nothing_witness :
    ((fun _ _ _ => none : Provider) "Hello" "en" "ta" = none) ∧
    ((translateText { transcription := true, translation := true, cacheTranslations := true }
        (fun _ _ _ => none) { cache := [], db := [(7, "ta", "x")] } 0
        "Hello" "en" "ta" (some 7)).2.1.db = [(7, "ta", "x")] ∧
      (Eff.providerCall "Hello" "en" "ta" ∈
          (translateText { transcription := true, translation := true, cacheTranslations := true }
            (fun _ _ _ => none) { cache := [], db := [(7, "ta", "x")] } 0
            "Hello" "en" "ta" (some 7)).2.2 →
        (translateText { transcription := true, translation := true, cacheTranslations := true }
            (fun _ _ _ => none) { cache := [], db := [(7, "ta", "x")] } 0
            "Hello" "en" "ta" (some 7)).1 = "Hello" ∧
          (translateText { transcription := true, translation := true, cacheTranslations := true }
            (fun _ _ _ => none) { cache := [], db := [(7, "ta", "x")] } 0
            "Hello" "en" "ta" (some 7)).2.1 = { cache := [], db := [(7, "ta", "x")] })) :=
  ⟨rfl, by
    have h := C9_failed_translation_persists_nothing
      { transcription := true, translation := true, cacheTranslations := true }
      (fun _ _ _ => none) { cache := [], db := [(7, "ta", "x")] } 0
      "Hello" "en" "ta" (some 7) rfl
    simpa using h⟩

/-- C6: starting transcription twice for the same meeting without an
intervening stop makes the second call fail with the already-active
rejection (`success = false`, message `Already transcribing`), leaves the
session map unchanged by the second call, and exactly one session exists
for that meeting id afterwards. -/
theorem C6_start_twice_already_active (cfg : FeaturesConfig) (ok2 : Bool)
    (sessions : List String) (meetingId : String)
    (hcfg : cfg.transcription = true) (hfresh : meetingId ∉ sessions) :
    (startTranscription cfg true sessions meetingId).1.success = true ∧
    (startTranscription cfg ok2 (startTranscription cfg true sessions meetingId).2 meetingId).1
      = { success := false, message := "Already transcribing" } ∧
    (startTranscription cfg ok2 (startTranscription cfg true sessions meetingId).2 meetingId).2
      = (startTranscription cfg true sessions meetingId).2 ∧
    ((startTranscription cfg ok2 (startTranscription cfg true sessions meetingId).2 meetingId).2).count
      meetingId = 1 := by
  have hcont : sessions.contains meetingId = false := by simpa using hfresh
  refine ⟨?_, ?_, ?_, ?_⟩ <;>
    simp [startTranscription, hcfg, hcont, hfresh, List.count_append,
      List.count_eq_zero.mpr hfresh]

/-- C6 witness: a concrete double start on a fresh meeting id. -/
theorem C6_start_twice_already_active_witness :
    ({ transcription := true, translation := true, cacheTranslations := true } :
        FeaturesConfig).transcription = true ∧
    ("M1" : String) ∉ ([] : List String) ∧
    ((startTranscription { transcription := true, translation := true, cacheTranslations := true }
        true [] "M1").1.success = true ∧
      (startTranscription { transcription := true, translation := true, cacheTranslations := true }
        true (startTranscription
          { transcription := true, translation := true, cacheTranslations := true }
          true [] "M1").2 "M1").1
        = { success := false, message := "Already transcribing" } ∧
      (startTranscription { transcription := true, translation := true, cacheTranslations := true }
        true (startTranscription
          { transcription := true, translation := true, cacheTranslations := true }
          true [] "M1").2 "M1").2
        = (startTranscription
            { transcription := true, translation := true, cacheTranslations := true }
            true [] "M1").2 ∧
      ((startTranscription { transcription := true, translation := true, cacheTranslations := true }
        true (startTranscription
          { transcription := true, translation := true, cacheTranslations := true }
          true [] "M1").2 "M1").2).count "M1" = 1) :=
  ⟨rfl, List.not_mem_nil _,
    C6_start_twice_already_active _ true [] "M1" rfl (List.not_mem_nil _)⟩

/-- C7: a transcript event with `isFinal = false` never touches the
durable store and never invokes translation: the translation state is
unchanged, every produced effect is a broadcast whose `translatedText`
equals its `originalText`, and a nonempty interim transcript is exactly
the single interim broadcast.  Store writes and fan-out are reachable
only through the `isFinal` branch of the dispatcher. -/
theorem C7_interim_broadcast_only
    (cfg : FeaturesConfig) (prov : Provider) (st : TransState) (now : Nat)
    (savedId : Option Nat) (langs : List (String × String))
    (meetingId speakerId speakerName text lang : String) (conf : ℚ) :
    (onTranscriptResult cfg prov st now savedId langs meetingId speakerId speakerName
        text conf lang false).1 = st ∧
    (∀ e ∈ (onTranscriptResult cfg prov st now savedId langs meetingId speakerId
        speakerName text conf lang false).2,
      ∃ msg : CaptionMsg, e = AgentEff.broadcast msg ∧
        msg.translatedText = some msg.originalText ∧
        msg.originalText = text ∧ msg.isFinal = false) ∧
    (text ≠ "" →
      (onTranscriptResult cfg prov st now savedId langs meetingId speakerId
          speakerName text conf lang false).2 =
        handleInterimTranscript meetingId speakerId speakerName
          { text := text, confidence := conf, language := lang, isFinal := false }) := by
  by_cases ht : text = ""
  · refine ⟨?_, ?_, ?_⟩
    · simp [onTranscriptResult, ht]
    · intro e he
      simp [onTranscriptResult, ht] at he
    · intro hne
      exact absurd ht hne
  · refine ⟨?_, ?_, ?_⟩
    · simp [onTranscriptResult, ht]
    · intro e he
      simp only [onTranscriptResult, if_neg ht, Bool.false_eq_true, if_false,
        handleInterimTranscript, List.mem_singleton] at he
      refine ⟨_, he, ?_, ?_, rfl⟩
      · simp [broadcastCaption, jsOrStr]
      · rfl
    · intro _
      simp [onTranscriptResult, ht]

/-- C7 witness: a concrete nonempty interim event. -/
theorem C7_interim_broadcast_only_witness :
    ("Hel" : String) ≠ "" ∧
    ((onTranscriptResult { transcription := true, translation := true, cacheTranslations := true }
        (fun _ _ _ => some "X") { cache := [], db := [] } 0 none [("u1", "ta")]
        "m1" "sp1" "Alice" "Hel" (9 / 10) "en" false).1 = { cache := [], db := [] } ∧
      (∀ e ∈ (onTranscriptResult { transcription := true, translation := true, cacheTranslations := true }
          (fun _ _ _ => some "X") { cache := [], db := [] } 0 none [("u1", "ta")]
          "m1" "sp1" "Alice" "Hel" (9 / 10) "en" false).2,
        ∃ msg : CaptionMsg, e = AgentEff.broadcast msg ∧
          msg.translatedText = some msg.originalText ∧
          msg.originalText = "Hel" ∧ msg.isFinal = false) ∧
      (("Hel" : String) ≠ "" →
        (onTranscriptResult { transcription := true, translation := true, cacheTranslations := true }
            (fun _ _ _ => some "X") { cache := [], db := [] } 0 none [("u1", "ta")]
            "m1" "sp1" "Alice" "Hel" (9 / 10) "en" false).2 =
          handleInterimTranscript "m1" "sp1" "Alice"
            { text := "Hel", confidence := 9 / 10, language := "en", isFinal := false })) :=
  ⟨by decide,
    C7_interim_broadcast_only _ _ _ _ _ _ _ _ _ _ _ _⟩

/-- C10: when translation is disabled or the participant-language list is
empty, `handleFinalTranscript` still broadcasts the final caption to all
listeners with `translatedText` equal to the original text; the final
transcript is never dropped at the delivery step.  A failing
preference-store read is absorbed into the empty list by
`getMeetingLanguages`, which lands in the same branch. -/
theorem C10_final_fallback_broadcast
    (cfg : FeaturesConfig) (prov : Provider) (st : TransState) (now : Nat)
    (savedId : Option Nat) (langs : List (String × String))
    (meetingId speakerId speakerName : String) (t : TranscriptEv)
    (h : cfg.translation = false ∨ langs = []) :
    (handleFinalTranscript cfg prov st now savedId langs meetingId speakerId speakerName t).1
      = st ∧
    (handleFinalTranscript cfg prov st now savedId langs meetingId speakerId speakerName t).2
      = [AgentEff.persistTranscript meetingId speakerId speakerName t.text t.language] ++
          (if savedId.isNone then [AgentEff.logWarn "Failed to save transcript"] else []) ++
          [AgentEff.broadcast
            { meetingId := meetingId, speakerId := speakerId, speakerName := speakerName,
              originalText := t.text, originalLanguage := t.language,
              translatedText := some t.text, targetLanguage := some t.language,
              isFinal := true, confidence := t.confidence }] ∧
    (∀ sOk : Bool, ∀ ps : List String, ∀ ss : List (String × String),
      getMeetingLanguages false sOk ps ss = []) := by
  refine ⟨?_, ?_, ?_⟩
  · simp [handleFinalTranscript, if_pos h]
  · simp [handleFinalTranscript, if_pos h, broadcastCaption, jsOrStr]
  · intro sOk ps ss
    rfl

/-- C10 witness: translation enabled but the language list empty (the
store-error case), at a concrete final transcript. -/
theorem C10_final_fallback_broadcast_witness :
    (({ transcription := true, translation := true, cacheTranslations := true } :
        FeaturesConfig).translation = false ∨ ([] : List (String × String)) = []) ∧
    ((handleFinalTranscript { transcription := true, translation := true, cacheTranslations := true }
        (fun _ _ _ => some "X") { cache := [], db := [] } 0 (some 3) []
        "m1" "sp1" "Alice"
        { text := "Hello everyone", confidence := 95 / 100, language := "en", isFinal := true }).1
      = { cache := [], db := [] } ∧
    (handleFinalTranscript { transcription := true, translation := true, cacheTranslations := true }
        (fun _ _ _ => some "X") { cache := [], db := [] } 0 (some 3) []
        "m1" "sp1" "Alice"
        { text := "Hello everyone", confidence := 95 / 100, language := "en", isFinal := true }).2
      = [AgentEff.persistTranscript "m1" "sp1" "Alice" "Hello everyone" "en"] ++
          (if (some 3 : Option Nat).isNone then [AgentEff.logWarn "Failed to save transcript"] else []) ++
          [AgentEff.broadcast
            { meetingId := "m1", speakerId := "sp1", speakerName := "Alice",
              originalText := "Hello everyone", originalLanguage := "en",
              translatedText := some "Hello everyone", targetLanguage := some "en",
              isFinal := true, confidence := 95 / 100 }] ∧
    (∀ sOk : Bool, ∀ ps : List String, ∀ ss : List (String × String),
      getMeetingLanguages false sOk ps ss = [])) :=
  ⟨Or.inr rfl,
    C10_final_fallback_broadcast _ _ _ _ _ _ _ _ _ _ (Or.inr rfl)⟩

/-- C1: a fan-out over two target languages where the provider fails for
the first and succeeds for the second completes as a whole: the result
map carries the original untranslated text for the failed language and
the provider translation for the successful one.  The function is total,
so no error reaches the caller. -/
theorem C1_fanout_partial_failure
    (cfg : FeaturesConfig) (prov : Provider) (st : TransState) (now : Nat)
    (text s l1 l2 tr : String)
    (hs1 : s ≠ l1) (hs2 : s ≠ l2)
    (hp1 : prov text s l1 = none) (hp2 : prov text s l2 = some tr)
    (hc1 : tcGet st.cache (cacheKey text s l1) now = none)
    (hc2 : tcGet st.cache (cacheKey text s l2) now = none) :
    lookupLang (translateToMultipleLanguages cfg prov st now text s [l1, l2] none).1 l1
      = some text ∧
    lookupLang (translateToMultipleLanguages cfg prov st now text s [l1, l2] none).1 l2
      = some tr := by
  have hne : l1 ≠ l2 := by
    intro h
    rw [h, hp2] at hp1
    exact Option.noConfusion hp1
  obtain ⟨h1a, h1b⟩ := translateText_fail_of_miss cfg st now hs1 hc1 hp1
  have h2 := translateText_ok_of_miss cfg st now hs2 hc2 hp2
  have hlist : (translateToMultipleLanguages cfg prov st now text s [l1, l2] none).1
      = [(l1, text), (l2, tr)] := by
    simp only [translateToMultipleLanguages, h1b, h1a, h2]
  rw [hlist]
  constructor
  · simp [lookupLang, List.find?]
  · have hb : (l1 == l2) = false := by
      simp
      exact hne
    simp [lookupLang, List.find?, hb]

/-- C1 witness: provider broken for `de`, working for `fr`, on a fresh
cache. -/
theorem C1_fanout_partial_failure_witness :
    ("en" : String) ≠ "de" ∧ ("en" : String) ≠ "fr" ∧
    ((fun _ _ tgt => if tgt = "fr" then some "Bonjour" else none : Provider)
        "Hello" "en" "de" = none) ∧
    ((fun _ _ tgt => if tgt = "fr" then some "Bonjour" else none : Provider)
        "Hello" "en" "fr" = some "Bonjour") ∧
    (tcGet ([] : TimedCache) (cacheKey "Hello" "en" "de") 0 = none) ∧
    (tcGet ([] : TimedCache) (cacheKey "Hello" "en" "fr") 0 = none) ∧
    (lookupLang (translateToMultipleLanguages
        { transcription := true, translation := true, cacheTranslations := true }
        (fun _ _ tgt => if tgt = "fr" then some "Bonjour" else none)
        { cache := [], db := [] } 0 "Hello" "en" ["de", "fr"] none).1 "de"
      = some "Hello" ∧
    lookupLang (translateToMultipleLanguages
        { transcription := true, translation := true, cacheTranslations := true }
        (fun _ _ tgt => if tgt = "fr" then some "Bonjour" else none)
        { cache := [], db := [] } 0 "Hello" "en" ["de", "fr"] none).1 "fr"
      = some "Bonjour") :=
  ⟨by decide, by decide, by simp, by simp, rfl, rfl,
    C1_fanout_partial_failure _ _ _ _ _ _ _ _ _
      (by decide) (by decide) (by simp) (by simp) rfl rfl⟩

/-- C3 counterexample: the texts `a  b` and `a b` are byte-identical
after normalization (trim plus whitespace collapsing), yet the source
builds distinct cache keys for them and a cache entry stored under one is
not found under the other, so the Translation Cache does not treat them
as the same key. -/
theorem C3_cex_whitespace_texts_distinct_keys :
    normalizeWs "a  b" = normalizeWs "a b" ∧
    cacheKey "a  b" "en" "ta" ≠ cacheKey "a b" "en" "ta" ∧
    tcGet (tcSet [] (cacheKey "a b" "en" "ta") "X" 0) (cacheKey "a  b" "en" "ta") 0
      = none := by
  refine ⟨?_, ?_, ?_⟩ <;> decide

/-- C3 amended: for a fixed source and target language, two texts map to
the same cache key iff they are byte-identical as given — equality is
exact on the raw bytes of the unnormalized text, with no trimming,
whitespace collapsing, or fuzzy matching. -/
theorem C3_amended_raw_key_equality (t1 t2 s l : String) :
    cacheKey t1 s l = cacheKey t2 s l ↔ t1 = t2 := by
  constructor
  · intro h
    have hd := congrArg String.data h
    simp only [cacheKey, String.data_append, List.append_assoc] at hd
    exact String.ext (List.append_left_injective _ hd)
  · intro h
    rw [h]

/-- C4 counterexample: the source constructs its NodeCache with only
`stdTTL` and `checkperiod`, leaving `maxKeys` at the unlimited default
`-1`, so no maximum entry count is enforced; concretely, after four
inserts into an empty cache all four entries are live and none (in
particular not the least-recently-used one) was evicted. -/
theorem C4_cex_no_entry_bound :
    translationCacheOptions.maxKeys = -1 ∧
    tcGet (tcSet (tcSet (tcSet (tcSet [] "k1" "v1" 0) "k2" "v2" 0) "k3" "v3" 0)
        "k4" "v4" 0) "k1" 0 = some "v1" ∧
    tcGet (tcSet (tcSet (tcSet (tcSet [] "k1" "v1" 0) "k2" "v2" 0) "k3" "v3" 0)
        "k4" "v4" 0) "k2" 0 = some "v2" ∧
    tcGet (tcSet (tcSet (tcSet (tcSet [] "k1" "v1" 0) "k2" "v2" 0) "k3" "v3" 0)
        "k4" "v4" 0) "k3" 0 = some "v3" ∧
    tcGet (tcSet (tcSet (tcSet (tcSet [] "k1" "v1" 0) "k2" "v2" 0) "k3" "v3" 0)
        "k4" "v4" 0) "k4" 0 = some "v4" ∧
    (tcSet (tcSet (tcSet (tcSet [] "k1" "v1" 0) "k2" "v2" 0) "k3" "v3" 0)
        "k4" "v4" 0).length = 4 := by
  refine ⟨?_, ?_, ?_, ?_, ?_, ?_⟩ <;> decide

/-- C4 amended: the Translation Cache enforces a time-based expiry window
only — one hour (stdTTL 3600 seconds, checked every 600 seconds): an
inserted entry is served while younger than 3600 seconds and treated as
absent afterwards.  No maximum entry count is configured (`maxKeys`
stays `-1`) and inserting one key never evicts any other key. -/
theorem C4_amended_ttl_only (c : TimedCache) (k k2 v : String) (tIns now now2 : Nat)
    (hne : k2 ≠ k) :
    translationCacheOptions.stdTTL = 3600 ∧
    translationCacheOptions.checkperiod = 600 ∧
    translationCacheOptions.maxKeys = -1 ∧
    tcGet (tcSet c k v tIns) k now = (if now < tIns + 3600 then some v else none) ∧
    tcGet (tcSet c k v tIns) k2 now2 = tcGet c k2 now2 := by
  refine ⟨rfl, rfl, rfl, ?_, tcGet_tcSet_other c k k2 v tIns now2 hne⟩
  exact tcGet_tcSet_self c k v tIns now

/-- C4 amended witness: concrete inserts, a live read before expiry and a
miss at the expiry bound, with an unrelated key untouched. -/
theorem C4_amended_ttl_only_witness :
    ("other" : String) ≠ "k" ∧
    (translationCacheOptions.stdTTL = 3600 ∧
      translationCacheOptions.checkperiod = 600 ∧
      translationCacheOptions.maxKeys = -1 ∧
      tcGet (tcSet [] "k" "v" 10) "k" 20 = (if 20 < 10 + 3600 then some "v" else none) ∧
      tcGet (tcSet [] "k" "v" 10) "other" 20 = tcGet [] "other" 20) :=
  ⟨by decide, C4_amended_ttl_only [] "k" "other" "v" 10 20 20 (by decide)⟩

/-- C8 counterexample: when the provider returns the empty string the
first call succeeds and caches it, but the cached empty string is falsy
in JavaScript (`if (cached)`), so an identical second request inside the
freshness window misses and calls the provider again — one provider
call, not zero. -/
theorem C8_cex_empty_translation_recalls_provider :
    (translateText { transcription := true, translation := true, cacheTranslations := true }
        (fun _ _ _ => some "") { cache := [], db := [] } 0 "hi" "en" "ta" none).1 = "" ∧
    ((translateText { transcription := true, translation := true, cacheTranslations := true }
        (fun _ _ _ => some "")
        (translateText { transcription := true, translation := true, cacheTranslations := true }
          (fun _ _ _ => some "") { cache := [], db := [] } 0 "hi" "en" "ta" none).2.1
        0 "hi" "en" "ta" none).2.2).countP isProviderCall = 1 := by
  refine ⟨?_, ?_⟩ <;> decide

/-- C8 amended: with caching enabled (the default) and a nonempty
translated text, a second request for the same `(text, source, target)`
within the one-hour freshness window is served from the cache: zero
provider calls and a result byte-identical to the first. -/
theorem C8_amended_second_call_cached
    (cfg : FeaturesConfig) (prov : Provider) (st : TransState) (now1 now2 : Nat)
    (text s t tr : String)
    (hcache : cfg.cacheTranslations = true) (hst : s ≠ t)
    (hc : tcGet st.cache (cacheKey text s t) now1 = none)
    (hp : prov text s t = some tr) (htr : tr ≠ "")
    (hfresh : now2 < now1 + 3600) :
    (translateText cfg prov st now1 text s t none).1 = tr ∧
    (translateText cfg prov (translateText cfg prov st now1 text s t none).2.1 now2
        text s t none).1 = tr ∧
    ((translateText cfg prov (translateText cfg prov st now1 text s t none).2.1 now2
        text s t none).2.2).countP isProviderCall = 0 := by
  have hc2 : tcGet (tcSet st.cache (cacheKey text s t) tr now1)
      (cacheKey text s t) now2 = some tr := by
    rw [tcGet_tcSet_self]
    exact if_pos hfresh
  refine ⟨translateText_ok_of_miss cfg st now1 hst hc hp, ?_, ?_⟩
  · rw [translateText_ok_state cfg st now1 hst hcache hc hp]
    rw [translateText_hit cfg _ now2 none hst hcache hc2 htr]
  · rw [translateText_ok_state cfg st now1 hst hcache hc hp]
    rw [translateText_hit cfg _ now2 none hst hcache hc2 htr]
    simp [isProviderCall]

/-- C8 amended witness: a concrete repeat request 100 seconds after the
first. -/
theorem C8_amended_second_call_cached_witness :
    (({ transcription := true, translation := true, cacheTranslations := true } :
        FeaturesConfig).cacheTranslations = true) ∧
    (("en" : String) ≠ "fr") ∧
    (tcGet ([] : TimedCache) (cacheKey "Hello" "en" "fr") 0 = none) ∧
    ((fun _ _ _ => some "Bonjour" : Provider) "Hello" "en" "fr" = some "Bonjour") ∧
    (("Bonjour" : String) ≠ "") ∧
    ((100 : Nat) < 0 + 3600) ∧
    ((translateText { transcription := true, translation := true, cacheTranslations := true }
        (fun _ _ _ => some "Bonjour") { cache := [], db := [] } 0 "Hello" "en" "fr" none).1
      = "Bonjour" ∧
    (translateText { transcription := true, translation := true, cacheTranslations := true }
        (fun _ _ _ => some "Bonjour")
        (translateText { transcription := true, translation := true, cacheTranslations := true }
          (fun _ _ _ => some "Bonjour") { cache := [], db := [] } 0 "Hello" "en" "fr" none).2.1
        100 "Hello" "en" "fr" none).1 = "Bonjour" ∧
    ((translateText { transcription := true, translation := true, cacheTranslations := true }
        (fun _ _ _ => some "Bonjour")
        (translateText { transcription := true, translation := true, cacheTranslations := true }
          (fun _ _ _ => some "Bonjour") { cache := [], db := [] } 0 "Hello" "en" "fr" none).2.1
        100 "Hello" "en" "fr" none).2.2).countP isProviderCall = 0) :=
  ⟨rfl, by decide, rfl, rfl, by decide, by decide,
    C8_amended_second_call_cached _ _ _ 0 100 "Hello" "en" "fr" "Bonjour"
      rfl (by decide) rfl rfl (by decide) (by decide)⟩

end Backbone
